import Mathlib

/-!
Verification of the PhysicsPulse quiz platform (`src/app/page.tsx`).

The application is a client-side React page.  All logic relevant to the
claims lives in one file: the quiz-session controller (`startQuiz`,
`handleAnswer`, `handleNext` inside `TakingQuizView`), the JSON question
bulk question intake (`handleJsonImport`), the dashboard accuracy computation
(`DashboardView`), the authentication stub (`handleLogin`) and the view
router (`renderPage`).

This development shallowly embeds those functions.  JavaScript numbers are
modelled as exact naturals/rationals (all values involved are small
non-negative integers and simple ratios), JavaScript strings as Lean
`String`, and the built-in `JSON.parse` as an executable JSON parser over a
`Json` inductive.  React `useState` setters become explicit state passing;
`toast.success` / `toast.error` calls become an emitted list of `Toast`
values.
-/

namespace PhysicsPulse

/-- `type Difficulty = 'easy' | 'medium' | 'hard'` (page.tsx line 18). -/
inductive Difficulty where
  | easy
  | medium
  | hard
deriving DecidableEq, Repr

/-- `type Mode = 'practice' | 'exam'` (page.tsx line 19). -/
inductive Mode where
  | practice
  | exam
deriving DecidableEq, Repr

/-- `type Page = ...` (page.tsx line 20): the twelve named views. -/
inductive Page where
  | auth
  | dashboard
  | quizSetup
  | takingQuiz
  | quizResults
  | leaderboard
  | bookmarks
  | adminQuestions
  | adminMotivation
  | adminUsers
  | playground
  | about
deriving DecidableEq, Repr

/-- `type SubscriptionStatus = 'FREE' | 'ACTIVE' | 'EXPIRED'` (page.tsx line 21). -/
inductive SubscriptionStatus where
  | FREE
  | ACTIVE
  | EXPIRED
deriving DecidableEq, Repr

/-- `type MotivationType = 'QUOTE' | 'IMAGE'` (page.tsx line 22). -/
inductive MotivationType where
  | QUOTE
  | IMAGE
deriving DecidableEq, Repr

/-- `interface Question` (page.tsx lines 24-34). -/
structure Question where
  id : Nat
  topic : String
  subtopic : String
  difficulty : Difficulty
  questionText : String
  options : List String
  correctAnswerIndex : Nat
  explanation : String
  imageUrl : Option String := none
deriving DecidableEq, Repr

/-- `user.role` values `'USER' | 'ADMIN'` (page.tsx line 40). -/
inductive Role where
  | USER
  | ADMIN
deriving DecidableEq, Repr

/-- The `stats` field of `interface User` (page.tsx lines 43-47). -/
structure UserStats where
  totalAttempted : Nat
  totalCorrect : Nat
  currentStreak : Nat
deriving DecidableEq, Repr

/-- One entry of the `history` field of `interface User` (page.tsx line 48). -/
structure HistoryEntry where
  id : Nat
  date : String
  score : Nat
  total : Nat
  mode : Mode
deriving DecidableEq, Repr

/-- `interface User` (page.tsx lines 36-49). -/
structure User where
  id : Nat
  name : String
  email : String
  role : Role
  subscriptionStatus : SubscriptionStatus
  subscriptionEndDate : Option String
  stats : UserStats
  history : List HistoryEntry
deriving DecidableEq, Repr

/-- `interface Motivation` (page.tsx lines 51-56). -/
structure Motivation where
  id : Nat
  type : MotivationType
  content : String
  author : Option String := none
deriving DecidableEq, Repr

/-- `const initialQuestions: Question[]` (page.tsx lines 59-63), the mock
question pool.  TeX braces in the source strings are the characters
`\x7b` / `\x7d`. -/
def initialQuestions : List Question :=
  [ { id := 1, topic := "Mechanics", subtopic := "Kinematics", difficulty := .easy,
      questionText := "The first equation of motion is $$v = u + at$$. What does it represent?",
      options := ["Final velocity after time $t$", "Displacement $s$", "Final velocity squared", "Constant acceleration"],
      correctAnswerIndex := 0,
      explanation := "This equation relates final velocity $v$ to initial velocity $u$, acceleration $a$, and time $t$." },
    { id := 2, topic := "Mechanics", subtopic := "Dynamics", difficulty := .medium,
      questionText := "Newton\x27s second law is $F = ma$. If mass is 2 kg and acceleration is 5 m/s², what is the force?",
      options := ["10 N", "7 N", "2.5 N", "0 N"],
      correctAnswerIndex := 0,
      explanation := "Force $F = 2 \\text\x7b kg\x7d \\times 5 \\text\x7b m/s\x7d^2 = 10$ Newtons." },
    { id := 3, topic := "Electromagnetism", subtopic := "Circuits", difficulty := .easy,
      questionText := "Ohm\x27s law is $V = IR$. For R = 10 Ω and I = 2 A, what is V?",
      options := ["20 V", "5 V", "12 V", "8 V"],
      correctAnswerIndex := 0,
      explanation := "Voltage $V = 10 \\Omega \\times 2 \\text\x7b A\x7d = 20$ Volts." } ]

/-- A `react-hot-toast` notification: `toast.success msg` or `toast.error msg`. -/
inductive Toast where
  | success (msg : String)
  | error (msg : String)
deriving DecidableEq, Repr

/-- The quiz-session state: the `currentQuiz` object built by `startQuiz`
(page.tsx lines 145-151) together with the two `useState` hooks local to
`TakingQuizView` (page.tsx lines 409-410) and a `completed` flag that
records that `handleNext` has navigated away to the dashboard
(page.tsx line 431), unmounting the view. -/
structure QuizState where
  questions : List Question
  answers : List Nat
  currentIndex : Nat
  startTime : Nat
  mode : Mode
  selectedOption : Option Nat
  showFeedback : Bool
  completed : Bool
deriving DecidableEq, Repr

/-- `startQuiz` (page.tsx lines 143-153): slices the first
`config.numQuestions` items off the question pool and initialises the
session at index 0.  The pool read by the source is the module constant
`initialQuestions`; it is a parameter here so the contract can be stated
for any pool.  `now` stands for `Date.now()`. -/
def startQuiz (pool : List Question) (numQuestions : Nat) (mode : Mode) (now : Nat) : QuizState :=
  { questions := pool.take numQuestions
    answers := []
    currentIndex := 0
    startTime := now
    mode := mode
    selectedOption := none
    showFeedback := false
    completed := false }

/-- A fallback `Question`; `handleAnswer` in the source reads
`quiz.questions[quiz.currentIndex]`, which is only well-defined when the
index is in bounds (as it is in every reachable rendered state). -/
def undefinedQuestion : Question :=
  { id := 0, topic := "", subtopic := "", difficulty := .easy, questionText := "",
    options := [], correctAnswerIndex := 0, explanation := "" }

/-- `handleAnswer` (page.tsx lines 413-422): a no-op while feedback is
showing; otherwise records the selected option, shows feedback, and emits a
success toast when the option equals `currentQuestion.correctAnswerIndex`,
an error toast otherwise. -/
def handleAnswer (s : QuizState) (index : Nat) : QuizState × List Toast :=
  if s.showFeedback then (s, [])
  else
    let currentQuestion := s.questions.getD s.currentIndex undefinedQuestion
    ({ s with selectedOption := some index, showFeedback := true },
      if index = currentQuestion.correctAnswerIndex then
        [Toast.success "Correct!"]
      else
        [Toast.error "Incorrect!"])

/-- `handleNext` (page.tsx lines 424-433).  The source guard
`quiz.currentIndex < quiz.questions.length - 1` is JavaScript integer
arithmetic, i.e. `currentIndex + 1 < length` (exact also for
`length = 0`, where the source compares against `-1`).  On the last
question it fires the completion side effects (`onComplete()`,
`setPage('dashboard')`), modelled by setting `completed`. -/
def handleNext (s : QuizState) : QuizState :=
  if s.currentIndex + 1 < s.questions.length then
    { s with currentIndex := s.currentIndex + 1, selectedOption := none, showFeedback := false }
  else
    { s with completed := true }

/-- The advance operation as exposed by the UI: the Next button is rendered
with `disabled={!showFeedback}` (page.tsx line 450), so `handleNext` can
only fire while feedback is showing; otherwise pressing it does nothing. -/
def advance (s : QuizState) : QuizState :=
  if s.showFeedback then handleNext s else s

/-- One user interaction on a live (mounted, not yet completed) quiz view:
either clicking an option button (`handleAnswer`) or clicking the Next
button (`advance`).  After completion the view is unmounted, so no further
interactions occur. -/
inductive Step : QuizState → QuizState → Prop where
  | select (s : QuizState) (i : Nat) (h : s.completed = false) : Step s (handleAnswer s i).1
  | next (s : QuizState) (h : s.completed = false) : Step s (advance s)

/-- States reachable from an initial session state by user interactions. -/
def Reachable (init s : QuizState) : Prop :=
  Relation.ReflTransGen Step init s

/-! ### Helper lemmas about single interactions -/

lemma handleAnswer_fst_questions (s : QuizState) (i : Nat) :
    (handleAnswer s i).1.questions = s.questions := by
  unfold handleAnswer
  split <;> rfl

lemma handleAnswer_fst_currentIndex (s : QuizState) (i : Nat) :
    (handleAnswer s i).1.currentIndex = s.currentIndex := by
  unfold handleAnswer
  split <;> rfl

lemma handleAnswer_fst_completed (s : QuizState) (i : Nat) :
    (handleAnswer s i).1.completed = s.completed := by
  unfold handleAnswer
  split <;> rfl

lemma advance_questions (s : QuizState) :
    (advance s).questions = s.questions := by
  unfold advance handleNext
  split <;> [split <;> rfl; rfl]

lemma advance_currentIndex_le (s : QuizState) :
    s.currentIndex ≤ (advance s).currentIndex := by
  unfold advance handleNext
  split <;> [split <;> simp; simp]

lemma advance_completed (s : QuizState) :
    (advance s).completed =
      (s.completed || (s.showFeedback && !(s.currentIndex + 1 < s.questions.length : Bool))) := by
  unfold advance handleNext
  by_cases hsf : s.showFeedback = true <;>
    by_cases hlt : s.currentIndex + 1 < s.questions.length <;>
      simp [hsf, hlt]

lemma advance_currentIndex_lt (s : QuizState)
    (h : (advance s).completed = false) :
    (advance s).currentIndex + 1 ≤ (advance s).questions.length ∨ advance s = s := by
  unfold advance handleNext at h ⊢
  by_cases hsf : s.showFeedback = true
  · by_cases hlt : s.currentIndex + 1 < s.questions.length
    · left
      simp [hsf, hlt]
      omega
    · simp [hsf, hlt] at h
  · right
    simp [hsf]

lemma step_questions_eq {s t : QuizState} (h : Step s t) : t.questions = s.questions := by
  cases h with
  | select i _ => exact handleAnswer_fst_questions s i
  | next _ => exact advance_questions s

lemma step_currentIndex_le {s t : QuizState} (h : Step s t) :
    s.currentIndex ≤ t.currentIndex := by
  cases h with
  | select i _ => exact (handleAnswer_fst_currentIndex s i).ge
  | next _ => exact advance_currentIndex_le s

lemma step_src_not_completed {s t : QuizState} (h : Step s t) : s.completed = false := by
  cases h with
  | select _ hc => exact hc
  | next hc => exact hc

/-- The session bound `currentIndex + 1 ≤ questions.length` (equivalently
`currentIndex ≤ length - 1` for a non-empty question list) is preserved by
every interaction. -/
lemma step_preserves_bound {s t : QuizState} (h : Step s t)
    (hs : s.completed = false → s.currentIndex + 1 ≤ s.questions.length) :
    t.completed = false → t.currentIndex + 1 ≤ t.questions.length := by
  cases h with
  | select i hc =>
      intro _
      rw [handleAnswer_fst_questions, handleAnswer_fst_currentIndex]
      exact hs hc
  | next hc =>
      intro ht
      rcases advance_currentIndex_lt s ht with hb | heq
      · exact hb
      · rw [heq]
        exact hs hc

/-- A step can only set `completed` by advancing past the last question
while its feedback is showing. -/
lemma step_completion_char {s t : QuizState} (h : Step s t)
    (hs : s.completed = false → s.currentIndex + 1 ≤ s.questions.length)
    (ht : t.completed = true) :
    s.completed = false ∧ s.showFeedback = true ∧ s.currentIndex + 1 = s.questions.length := by
  have hc : s.completed = false := step_src_not_completed h
  refine ⟨hc, ?_⟩
  cases h with
  | select i _ =>
      rw [handleAnswer_fst_completed, hc] at ht
      exact absurd ht (by simp)
  | next _ =>
      rw [advance_completed, hc] at ht
      simp only [Bool.false_or, Bool.and_eq_true, Bool.not_eq_eq_eq_not, Bool.not_true,
        decide_eq_false_iff_not] at ht
      exact ⟨ht.1, le_antisymm (hs hc) (le_of_not_lt ht.2)⟩

/-- The bound holds in every reachable state of a session that starts with
at least one question. -/
lemma reachable_bound {init s : QuizState}
    (hinit : init.completed = false → init.currentIndex + 1 ≤ init.questions.length)
    (h : Reachable init s) :
    s.completed = false → s.currentIndex + 1 ≤ s.questions.length := by
  induction h with
  | refl => exact hinit
  | tail _ hstep ih => exact step_preserves_bound hstep ih

lemma advance_currentIndex_of_lt (s : QuizState) (hsf : s.showFeedback = true)
    (hlt : s.currentIndex + 1 < s.questions.length) :
    (advance s).currentIndex = s.currentIndex + 1 := by
  unfold advance handleNext
  simp [hsf, hlt]

/-! ### Claim theorems -/

/-- C1: `startQuiz` builds a session whose question sequence is the first
`count` items of the question pool in encounter order (position by
position), with current index 0 and the given mode; for a pool of 3
questions and count 3 the sequence is exactly the pool itself. -/
theorem startQuiz_takes_first_count (pool : List Question) (numQuestions : Nat)
    (mode : Mode) (now : Nat) :
    (startQuiz pool numQuestions mode now).currentIndex = 0
    ∧ (startQuiz pool numQuestions mode now).mode = mode
    ∧ (startQuiz pool numQuestions mode now).questions.length = min numQuestions pool.length
    ∧ (∀ i, i < (startQuiz pool numQuestions mode now).questions.length →
        (startQuiz pool numQuestions mode now).questions[i]? = pool[i]?)
    ∧ (pool.length = 3 → numQuestions = 3 →
        (startQuiz pool numQuestions mode now).questions = pool) := by
  refine ⟨rfl, rfl, by simp [startQuiz], ?_, ?_⟩
  · intro i hi
    simp only [startQuiz, List.length_take] at hi ⊢
    rw [List.getElem?_take_of_lt]
    omega
  · intro h3 hn
    subst hn
    simp only [startQuiz]
    exact List.take_of_length_le (by omega)

/-- Witness for C1 at the concrete pool of the source (`initialQuestions`,
3 entries) and count 3. -/
theorem startQuiz_takes_first_count_witness :
    (startQuiz initialQuestions 3 Mode.practice 0).questions = initialQuestions ∧
    (startQuiz initialQuestions 3 Mode.practice 0).currentIndex = 0 :=
  ⟨(startQuiz_takes_first_count initialQuestions 3 Mode.practice 0).2.2.2.2 rfl rfl,
    (startQuiz_takes_first_count initialQuestions 3 Mode.practice 0).1⟩

/-- C2: in every session the current index starts at 0, is monotonically
non-decreasing across transitions, satisfies
`currentIndex + 1 ≤ length` (i.e. never exceeds `length - 1`) while the
session is not completed, completion happens only by dismissing the last
question's feedback with advance (necessity), dismissing the last
question's feedback with advance is an available interaction and does
yield completion (sufficiency), and a completed session admits no further
transition (so completion is reached exactly once). -/
theorem quiz_session_index_invariants (pool : List Question) (numQuestions : Nat)
    (mode : Mode) (now : Nat)
    (hlen : 0 < (startQuiz pool numQuestions mode now).questions.length) :
    (startQuiz pool numQuestions mode now).currentIndex = 0
    ∧ (∀ s, Reachable (startQuiz pool numQuestions mode now) s →
        s.completed = false → s.currentIndex + 1 ≤ s.questions.length)
    ∧ (∀ s t, Step s t → s.currentIndex ≤ t.currentIndex)
    ∧ (∀ s t, Reachable (startQuiz pool numQuestions mode now) s → Step s t →
        t.completed = true →
        s.completed = false ∧ s.showFeedback = true
          ∧ s.currentIndex + 1 = s.questions.length)
    ∧ (∀ s, Reachable (startQuiz pool numQuestions mode now) s →
        s.completed = false → s.showFeedback = true →
        s.currentIndex + 1 = s.questions.length →
        Step s (advance s) ∧ (advance s).completed = true)
    ∧ (∀ s t, s.completed = true → ¬ Step s t) := by
  have hinit : (startQuiz pool numQuestions mode now).completed = false →
      (startQuiz pool numQuestions mode now).currentIndex + 1
        ≤ (startQuiz pool numQuestions mode now).questions.length :=
    fun _ => hlen
  refine ⟨rfl, ?_, ?_, ?_, ?_, ?_⟩
  · intro s hs
    exact reachable_bound hinit hs
  · intro s t hst
    exact step_currentIndex_le hst
  · intro s t hs hst ht
    exact step_completion_char hst (reachable_bound hinit hs) ht
  · intro s _ hc hsf hlast
    refine ⟨Step.next s hc, ?_⟩
    rw [advance_completed, hc, hsf, hlast]
    simp
  · intro s t hcomp hst
    rw [step_src_not_completed hst] at hcomp
    exact absurd hcomp (by simp)

/-- Witness for C2: at the session the source actually starts
(`initialQuestions`, count 3, practice mode), index 0 and the in-bounds
invariant hold at the initial state; and on a one-question session,
answering the (last) question and then advancing from its feedback state
actually completes the session. -/
theorem quiz_session_index_invariants_witness :
    (startQuiz initialQuestions 3 Mode.practice 0).currentIndex = 0
    ∧ (startQuiz initialQuestions 3 Mode.practice 0).currentIndex + 1
        ≤ (startQuiz initialQuestions 3 Mode.practice 0).questions.length
    ∧ (advance (handleAnswer (startQuiz initialQuestions 1 Mode.practice 0) 0).1).completed
        = true := by
  have h := quiz_session_index_invariants initialQuestions 3 Mode.practice 0 (by decide)
  have h1 := quiz_session_index_invariants initialQuestions 1 Mode.practice 0 (by decide)
  refine ⟨h.1, h.2.1 _ Relation.ReflTransGen.refl rfl, ?_⟩
  exact (h1.2.2.2.2.1 _
    (Relation.ReflTransGen.single (Step.select (startQuiz initialQuestions 1 Mode.practice 0) 0 rfl))
    rfl rfl (by decide)).2

/-- C5: while feedback is showing, selecting any option again is a no-op:
the state is returned unchanged and no toast is emitted. -/
theorem handleAnswer_reselect_noop (s : QuizState) (index : Nat)
    (h : s.showFeedback = true) :
    handleAnswer s index = (s, []) := by
  unfold handleAnswer
  simp [h]

/-- Witness for C5: re-selecting after answering the first question of the
source's own session changes nothing and emits nothing. -/
theorem handleAnswer_reselect_noop_witness :
    handleAnswer (handleAnswer (startQuiz initialQuestions 3 Mode.practice 0) 0).1 1
      = ((handleAnswer (startQuiz initialQuestions 3 Mode.practice 0) 0).1, []) :=
  handleAnswer_reselect_noop _ 1 rfl

/-- C6: with no option selected yet (`showFeedback = false`, the Next
button is disabled), advance is a silent no-op, and this is the only guard:
on a live session advance is a no-op exactly when no selection has been
made. -/
theorem advance_guard_only (s : QuizState) (h : s.completed = false) :
    (s.showFeedback = false → advance s = s) ∧ (advance s = s ↔ s.showFeedback = false) := by
  have hiff : advance s = s ↔ s.showFeedback = false := by
    constructor
    · intro heq
      by_contra hsf'
      have hsf : s.showFeedback = true := by simpa using hsf'
      by_cases hlt : s.currentIndex + 1 < s.questions.length
      · have hidx := advance_currentIndex_of_lt s hsf hlt
        rw [heq] at hidx
        omega
      · have hcomp := advance_completed s
        rw [heq, h, hsf] at hcomp
        simp [hlt] at hcomp
    · intro hsf
      unfold advance
      simp [hsf]
  exact ⟨hiff.mpr, hiff⟩

/-- Witness for C6: at the freshly started session of the source (nothing
selected yet), advance returns the state unchanged. -/
theorem advance_guard_only_witness :
    advance (startQuiz initialQuestions 3 Mode.practice 0)
      = startQuiz initialQuestions 3 Mode.practice 0 :=
  (advance_guard_only (startQuiz initialQuestions 3 Mode.practice 0) rfl).1 rfl

/-- C7: answering from `AwaitingAnswer` records the selection and shows
feedback, and the emitted toast is the success toast exactly when the
chosen option index equals `question[currentIndex].correctAnswerIndex`,
the error toast exactly otherwise. -/
theorem handleAnswer_scores_by_comparison (s : QuizState) (index : Nat)
    (h : s.showFeedback = false) (hidx : s.currentIndex < s.questions.length) :
    (handleAnswer s index).1
        = { s with selectedOption := some index, showFeedback := true }
    ∧ ((handleAnswer s index).2 = [Toast.success "Correct!"]
        ↔ index = (s.questions.get ⟨s.currentIndex, hidx⟩).correctAnswerIndex)
    ∧ ((handleAnswer s index).2 = [Toast.error "Incorrect!"]
        ↔ index ≠ (s.questions.get ⟨s.currentIndex, hidx⟩).correctAnswerIndex) := by
  have hg : s.questions[s.currentIndex]?.getD undefinedQuestion
      = s.questions[s.currentIndex] := by
    rw [List.getElem?_eq_getElem hidx]
    rfl
  by_cases hc : index = (s.questions.get ⟨s.currentIndex, hidx⟩).correctAnswerIndex
  · simp [handleAnswer, h, hg, hc, List.get_eq_getElem]
  · simp [handleAnswer, h, hg, hc, List.get_eq_getElem]

/-- Witness for C7: on the source's own first question (correct option 0),
selecting option 0 emits the success toast. -/
theorem handleAnswer_scores_by_comparison_witness :
    (handleAnswer (startQuiz initialQuestions 3 Mode.practice 0) 0).2
      = [Toast.success "Correct!"] :=
  ((handleAnswer_scores_by_comparison (startQuiz initialQuestions 3 Mode.practice 0) 0 rfl
      (by decide)).2.1).mpr (by decide)

/-! ### Login (`handleLogin`, page.tsx lines 120-135) -/

/-- Model of JavaScript `String.prototype.includes` on character lists: a
left-to-right scan that at each position tests whether the pattern starts
there. -/
def containsSeq (pat : List Char) : List Char → Bool
  | [] => pat.isEmpty
  | c :: rest => pat.isPrefixOf (c :: rest) || containsSeq pat rest

/-- `containsSeq` decides substring occurrence. -/
lemma containsSeq_iff_infix (pat l : List Char) :
    containsSeq pat l = true ↔ pat <:+: l := by
  induction l with
  | nil =>
      simp only [containsSeq, List.isEmpty_iff]
      constructor
      · rintro rfl
        exact List.infix_rfl
      · exact fun h => List.eq_nil_of_infix_nil h
  | cons c rest ih =>
      simp [containsSeq, ih, List.isPrefixOf_iff_prefix, List.infix_cons_iff]

/-- Model of `String.prototype.toLowerCase` (ASCII case mapping). -/
def toLowerCase (s : String) : String := ⟨s.data.map Char.toLower⟩

/-- `s.includes(pat)` on strings. -/
def jsIncludes (s pat : String) : Bool := containsSeq pat.data s.data

/-- `handleLogin` (page.tsx lines 120-135): assigns role `ADMIN` iff the
lower-cased email includes `"admin"`, then builds the demo user with fixed
subscription, stats and empty history.  `now` stands for `Date.now()`. -/
def handleLogin (email : String) (now : Nat) : User :=
  let role : Role := if jsIncludes (toLowerCase email) "admin" then .ADMIN else .USER
  { id := now
    name := if role = .ADMIN then "Admin User" else "Demo Student"
    email := email
    role := role
    subscriptionStatus := .ACTIVE
    subscriptionEndDate := some "2024-12-31"
    stats := { totalAttempted := 50, totalCorrect := 35, currentStreak := 5 }
    history := [] }

/-- C8: login yields role `ADMIN` iff the email contains the substring
`"admin"` case-insensitively (i.e. `"admin"` occurs in the lower-cased
character sequence); every other email yields role `USER`. -/
theorem handleLogin_role_iff_admin_substring (email : String) (now : Nat) :
    ((handleLogin email now).role = Role.ADMIN
      ↔ "admin".data <:+: email.data.map Char.toLower)
    ∧ (¬ "admin".data <:+: email.data.map Char.toLower →
        (handleLogin email now).role = Role.USER) := by
  have hrole : (handleLogin email now).role
      = (if jsIncludes (toLowerCase email) "admin" then Role.ADMIN else Role.USER) := by
    unfold handleLogin
    split <;> rfl
  have hinc : jsIncludes (toLowerCase email) "admin" = true
      ↔ "admin".data <:+: email.data.map Char.toLower :=
    containsSeq_iff_infix "admin".data (email.data.map Char.toLower)
  constructor
  · rw [hrole]
    by_cases hj : jsIncludes (toLowerCase email) "admin" = true
    · simp [hj, hinc.mp hj]
    · simp only [Bool.not_eq_true] at hj
      simp [hj]
      rw [← hinc]
      simp [hj]
  · intro hni
    rw [hrole]
    have : jsIncludes (toLowerCase email) "admin" = false := by
      by_contra hb
      simp only [Bool.not_eq_false] at hb
      exact hni (hinc.mp hb)
    simp [this]

/-- Witness for C8: `"Admin@test.com"` logs in as `ADMIN`,
`"alice@example.com"` as `USER`. -/
theorem handleLogin_role_iff_admin_substring_witness :
    (handleLogin "Admin@test.com" 0).role = Role.ADMIN
    ∧ (handleLogin "alice@example.com" 0).role = Role.USER :=
  ⟨(handleLogin_role_iff_admin_substring "Admin@test.com" 0).1.mpr (by decide),
    (handleLogin_role_iff_admin_substring "alice@example.com" 0).2 (by decide)⟩

/-- C10: the user built by login has, for every email, subscription status
`ACTIVE` ending `"2024-12-31"`, stats 50 attempted / 35 correct / streak 5,
and empty history; only `id`, `name`, `email` and `role` vary with the
inputs, and every such user satisfies `totalCorrect ≤ totalAttempted`. -/
theorem handleLogin_constant_profile (email : String) (now : Nat) :
    (handleLogin email now).subscriptionStatus = SubscriptionStatus.ACTIVE
    ∧ (handleLogin email now).subscriptionEndDate = some "2024-12-31"
    ∧ (handleLogin email now).stats
        = { totalAttempted := 50, totalCorrect := 35, currentStreak := 5 }
    ∧ (handleLogin email now).history = []
    ∧ (handleLogin email now).email = email
    ∧ (handleLogin email now).id = now
    ∧ (handleLogin email now).stats.totalCorrect
        ≤ (handleLogin email now).stats.totalAttempted := by
  refine ⟨rfl, rfl, rfl, rfl, rfl, rfl, ?_⟩
  show (35 : Nat) ≤ 50
  decide

/-! ### Dashboard accuracy (`DashboardView`, page.tsx line 357) -/

/-- `const accuracy = user.stats.totalAttempted > 0 ?
Math.round((user.stats.totalCorrect / user.stats.totalAttempted) * 100) : 0`
with JavaScript numbers modelled as exact rationals; `Math.round`
(round half towards positive infinity) is Mathlib's `round`. -/
def accuracy (totalAttempted totalCorrect : Nat) : Int :=
  if 0 < totalAttempted then
    round ((totalCorrect : ℚ) / (totalAttempted : ℚ) * 100)
  else 0

/-- C4: the accuracy percentage is `⌊100·correct/attempted + 1/2⌋`
(round-half-up of `100 × correct / attempted`) for positive attempted
count and 0 otherwise; in particular `accuracy 0 c = 0` and
`accuracy 50 35 = 70`. -/
theorem accuracy_rounds_ratio (attempted correct : Nat) :
    accuracy attempted correct
      = (if 0 < attempted then ⌊100 * (correct : ℚ) / (attempted : ℚ) + 1 / 2⌋ else 0)
    ∧ accuracy 0 correct = 0
    ∧ accuracy 50 35 = 70 := by
  refine ⟨?_, rfl, ?_⟩
  · unfold accuracy
    split
    · rw [round_eq]
      congr 2
      ring
    · rfl
  · unfold accuracy
    norm_num [round_eq]

/-! ### JSON import (`handleJsonImport`, page.tsx lines 170-182)

`JSON.parse` is a platform builtin, not repository code; it is modelled
here by an executable recursive-descent parser over a `Json` inductive.
Numeric literals keep their lexeme unevaluated (no claim depends on
numeric values); the parser follows the JSON grammar (strings with
escapes, arrays, objects, literals, numbers with optional sign, fraction
and exponent) and rejects trailing input, the behaviour `handleJsonImport`
relies on. -/

/-- A parsed JSON value. -/
inductive Json where
  | null
  | bool (b : Bool)
  | num (lexeme : String)
  | str (s : String)
  | arr (items : List Json)
  | obj (fields : List (String × Json))

/-- JSON insignificant whitespace. -/
def isJsonWs (c : Char) : Bool :=
  c = ' ' || c = '\t' || c = '\n' || c = '\r'

/-- Drop leading JSON whitespace. -/
def skipWs : List Char → List Char
  | c :: rest => if isJsonWs c then skipWs rest else c :: rest
  | [] => []

/-- Value of one hexadecimal digit. -/
def hexDigitVal (c : Char) : Option Nat :=
  if '0' ≤ c ∧ c ≤ '9' then some (c.toNat - '0'.toNat)
  else if 'a' ≤ c ∧ c ≤ 'f' then some (c.toNat - 'a'.toNat + 10)
  else if 'A' ≤ c ∧ c ≤ 'F' then some (c.toNat - 'A'.toNat + 10)
  else none

/-- Single-character JSON string escapes. -/
def unescapeChar (c : Char) : Option Char :=
  if c = '"' then some '"'
  else if c = '\\' then some '\\'
  else if c = '/' then some '/'
  else if c = 'b' then some (Char.ofNat 8)
  else if c = 'f' then some (Char.ofNat 12)
  else if c = 'n' then some '\n'
  else if c = 'r' then some '\r'
  else if c = 't' then some '\t'
  else none

/-- Parse the body of a JSON string after the opening quote, returning its
content and the input after the closing quote. -/
def stringBody : Nat → List Char → Option (List Char × List Char)
  | 0, _ => none
  | fuel + 1, cs =>
    match cs with
    | [] => none
    | c :: rest =>
      if c = '"' then some ([], rest)
      else if c = '\\' then
        match rest with
        | 'u' :: h1 :: h2 :: h3 :: h4 :: rest2 =>
          match hexDigitVal h1, hexDigitVal h2, hexDigitVal h3, hexDigitVal h4 with
          | some a, some b, some c3, some d =>
            match stringBody fuel rest2 with
            | some (content, r) => some (Char.ofNat (((a * 16 + b) * 16 + c3) * 16 + d) :: content, r)
            | none => none
          | _, _, _, _ => none
        | e :: rest2 =>
          match unescapeChar e with
          | some ec =>
            match stringBody fuel rest2 with
            | some (content, r) => some (ec :: content, r)
            | none => none
          | none => none
        | [] => none
      else
        match stringBody fuel rest with
        | some (content, r) => some (c :: content, r)
        | none => none

/-- Longest run of decimal digits at the front of the input. -/
def spanDigits : List Char → List Char × List Char
  | c :: rest =>
    if c.isDigit then
      let (ds, r) := spanDigits rest
      (c :: ds, r)
    else ([], c :: rest)
  | [] => ([], [])

/-- Optional exponent part of a JSON number, appended to the lexeme. -/
def numExponentPart (lex : List Char) (cs : List Char) : Option (Json × List Char) :=
  match cs with
  | c :: rest =>
    if c = 'e' || c = 'E' then
      let (sgn, cs2) :=
        match rest with
        | '+' :: r => (['+'], r)
        | '-' :: r => (['-'], r)
        | _ => (([] : List Char), rest)
      let (ed, cs3) := spanDigits cs2
      if ed.isEmpty then none else some (Json.num ⟨lex ++ c :: sgn ++ ed⟩, cs3)
    else some (Json.num ⟨lex⟩, c :: rest)
  | [] => some (Json.num ⟨lex⟩, [])

/-- A JSON number: optional minus, integer digits, optional fraction,
optional exponent; the lexeme is kept as a string. -/
def numberLex (cs : List Char) : Option (Json × List Char) :=
  let (sgn, cs1) :=
    match cs with
    | '-' :: rest => (['-'], rest)
    | _ => (([] : List Char), cs)
  let (ip, cs2) := spanDigits cs1
  if ip.isEmpty then none
  else
    match cs2 with
    | '.' :: rest =>
      let (fp, cs3) := spanDigits rest
      if fp.isEmpty then none else numExponentPart (sgn ++ ip ++ '.' :: fp) cs3
    | _ => numExponentPart (sgn ++ ip) cs2

mutual

/-- Parse one JSON value (fuel-indexed recursive descent). -/
def parseValue : Nat → List Char → Option (Json × List Char)
  | 0, _ => none
  | fuel + 1, cs =>
    match skipWs cs with
    | [] => none
    | c :: rest =>
      if c = '\x7b' then
        match skipWs rest with
        | '\x7d' :: rest2 => some (Json.obj [], rest2)
        | cs2 =>
          match parseMembers fuel cs2 with
          | some (ms, rest2) => some (Json.obj ms, rest2)
          | none => none
      else if c = '[' then
        match skipWs rest with
        | ']' :: rest2 => some (Json.arr [], rest2)
        | cs2 =>
          match parseItems fuel cs2 with
          | some (vs, rest2) => some (Json.arr vs, rest2)
          | none => none
      else if c = '"' then
        match stringBody (rest.length + 1) rest with
        | some (content, rest2) => some (Json.str ⟨content⟩, rest2)
        | none => none
      else if c = 't' then
        if ['r', 'u', 'e'].isPrefixOf rest then some (Json.bool true, rest.drop 3) else none
      else if c = 'f' then
        if ['a', 'l', 's', 'e'].isPrefixOf rest then some (Json.bool false, rest.drop 4) else none
      else if c = 'n' then
        if ['u', 'l', 'l'].isPrefixOf rest then some (Json.null, rest.drop 3) else none
      else
        numberLex (c :: rest)

/-- Parse the comma-separated items of a non-empty array up to `]`. -/
def parseItems : Nat → List Char → Option (List Json × List Char)
  | 0, _ => none
  | fuel + 1, cs =>
    match parseValue fuel cs with
    | some (v, rest) =>
      match skipWs rest with
      | ',' :: rest2 =>
        match parseItems fuel rest2 with
        | some (vs, rest3) => some (v :: vs, rest3)
        | none => none
      | ']' :: rest2 => some ([v], rest2)
      | _ => none
    | none => none

/-- Parse the comma-separated members of a non-empty object up to the
closing brace. -/
def parseMembers : Nat → List Char → Option (List (String × Json) × List Char)
  | 0, _ => none
  | fuel + 1, cs =>
    match cs with
    | '"' :: rest =>
      match stringBody (rest.length + 1) rest with
      | some (key, rest2) =>
        match skipWs rest2 with
        | ':' :: rest3 =>
          match parseValue fuel rest3 with
          | some (v, rest4) =>
            match skipWs rest4 with
            | ',' :: rest5 =>
              match parseMembers fuel (skipWs rest5) with
              | some (ms, rest6) => some ((⟨key⟩, v) :: ms, rest6)
              | none => none
            | '\x7d' :: rest5 => some ([(⟨key⟩, v)], rest5)
            | _ => none
          | none => none
        | _ => none
      | none => none
    | _ => none

end

/-- Model of `JSON.parse`: parse one value and reject trailing input. -/
def jsonParse (s : String) : Option Json :=
  match parseValue (2 * s.data.length + 4) s.data with
  | some (v, rest) => if (skipWs rest).isEmpty then some v else none
  | none => none

/-- `handleJsonImport` (page.tsx lines 170-182): parse the pasted text; if
the result is an array, append all of its items to the question repository
as-is (no per-item validation) and toast the imported count; on a parse
error or a non-array value, toast an error and leave the repository
unchanged.  The repository is modelled as the list of stored JSON values,
since imported items are appended exactly as parsed. -/
def handleJsonImport (jsonString : String) (prev : List Json) : List Json × Toast :=
  match jsonParse jsonString with
  | some (Json.arr newQuestions) =>
      (prev ++ newQuestions,
        Toast.success (toString newQuestions.length ++ " questions imported successfully!"))
  | some _ => (prev, Toast.error "Invalid JSON format. Please check the file.")
  | none => (prev, Toast.error "Invalid JSON format. Please check the file.")

/-- C3: import of a string that fails to parse, or parses to a non-array,
leaves the repository unchanged and emits the error toast; import of an
array appends all its items and reports the count; importing `"[]"` adds
nothing and reports success with count 0. -/
theorem handleJsonImport_spec (jsonString : String) (prev : List Json) :
    (jsonParse jsonString = none →
      handleJsonImport jsonString prev
        = (prev, Toast.error "Invalid JSON format. Please check the file."))
    ∧ (∀ v, jsonParse jsonString = some v → (∀ items, v ≠ Json.arr items) →
        handleJsonImport jsonString prev
          = (prev, Toast.error "Invalid JSON format. Please check the file."))
    ∧ (∀ items, jsonParse jsonString = some (Json.arr items) →
        handleJsonImport jsonString prev
          = (prev ++ items,
              Toast.success (toString items.length ++ " questions imported successfully!")))
    ∧ handleJsonImport "[]" prev
        = (prev, Toast.success "0 questions imported successfully!") := by
  refine ⟨?_, ?_, ?_, ?_⟩
  · intro h
    unfold handleJsonImport
    rw [h]
  · intro v hv hne
    unfold handleJsonImport
    rw [hv]
    cases v with
    | null => rfl
    | bool b => rfl
    | num lexeme => rfl
    | str s => rfl
    | arr items => exact absurd rfl (hne items)
    | obj fields => rfl
  · intro items h
    unfold handleJsonImport
    rw [h]
  · have hp : jsonParse "[]" = some (Json.arr []) := rfl
    unfold handleJsonImport
    rw [hp]
    simp
    rfl

/-- Witness for C3: the inputs `"{}"` (parses, but not an array) and
`"oops"` (does not parse) both leave an empty repository empty and emit
the error toast. -/
theorem handleJsonImport_spec_witness :
    handleJsonImport "\x7b\x7d" ([] : List Json)
      = ([], Toast.error "Invalid JSON format. Please check the file.")
    ∧ handleJsonImport "oops" ([] : List Json)
      = ([], Toast.error "Invalid JSON format. Please check the file.") :=
  ⟨(handleJsonImport_spec "\x7b\x7d" []).2.1 (Json.obj []) rfl
      (fun _ h => Json.noConfusion h),
    (handleJsonImport_spec "oops" []).1 rfl⟩

/-! ### View routing (`renderPage`, page.tsx lines 184-199) -/

/-- `Omit<User, 'history' | 'stats'>`, the element type of the `allUsers`
state (page.tsx line 84). -/
structure UserBase where
  id : Nat
  name : String
  email : String
  role : Role
  subscriptionStatus : SubscriptionStatus
  subscriptionEndDate : Option String
deriving DecidableEq, Repr

/-- The root component state (page.tsx lines 82-90).  The question
repository holds JSON values: `handleJsonImport` appends parsed items with
no conversion, so the declared `Question[]` type is not enforced at
runtime. -/
structure AppState where
  page : Page
  user : Option User
  allUsers : List UserBase
  questions : List Json
  motivationItems : List Motivation
  bookmarked : List Nat
  currentQuiz : Option QuizState
  theme : String
  isClient : Bool

/-- The state effects of one `renderPage` call (page.tsx lines 184-199):
with no logged-in user the auth view renders; entering `taking-quiz` with
no active session calls `setPage('quiz-setup')`; an unhandled page name
falls to the `default:` branch, `setPage('dashboard')`.  No branch emits a
toast. -/
def renderPage (s : AppState) : AppState × List Toast :=
  if s.user.isNone then (s, [])
  else
    match s.page with
    | .dashboard => (s, [])
    | .quizSetup => (s, [])
    | .takingQuiz => if s.currentQuiz.isNone then ({ s with page := .quizSetup }, []) else (s, [])
    | .adminQuestions => (s, [])
    | .adminUsers => (s, [])
    | .playground => (s, [])
    | .about => (s, [])
    | _ => ({ s with page := .dashboard }, [])

/-- C9: entering the quiz-taking view with no active session redirects to
the quiz-setup view, emits no notification, and changes nothing else. -/
theorem renderPage_redirects_without_session (s : AppState)
    (hu : s.user ≠ none) (hp : s.page = Page.takingQuiz) (hq : s.currentQuiz = none) :
    renderPage s = ({ s with page := Page.quizSetup }, []) := by
  obtain ⟨u, hus⟩ := Option.ne_none_iff_exists'.mp hu
  simp [renderPage, hus, hp, hq]

/-- Witness for C9 on a concrete logged-in state sitting on `taking-quiz`
with no session. -/
theorem renderPage_redirects_without_session_witness :
    renderPage { page := Page.takingQuiz, user := some (handleLogin "alice@example.com" 0),
                 allUsers := [], questions := [], motivationItems := [], bookmarked := [],
                 currentQuiz := none, theme := "light", isClient := true }
      = ({ page := Page.quizSetup, user := some (handleLogin "alice@example.com" 0),
           allUsers := [], questions := [], motivationItems := [], bookmarked := [],
           currentQuiz := none, theme := "light", isClient := true }, []) :=
  renderPage_redirects_without_session _ (by simp) rfl rfl

end PhysicsPulse
